import Mathlib

/-!
# Verification of the Carely-AI core against its specification

Shallow embedding of the intent-routing agent
(`server/app/agents/routing_agent.py`), the RAG service layer
(`server/app/service/rag_service.py`), the notebook-style RAG class
(`server/RAG/medical_rag.py`) and the ingestion chunker
(`server/app/rag/insert_script.py`).

External collaborators (the OpenAI client, the Pinecone index and the NLTK
Porter stemmer) are modelled as parameters: the stemmer is an arbitrary
function `String → String`, and network calls are represented by explicit
outcome values passed to the embedded functions.
-/

namespace Carely

/-- The `Scheduling` keyword list of `DEFAULT_INTENT_KEYWORDS`
(`routing_agent.py`). -/
def schedulingKeywords : List String :=
  ["schedule", "appointment", "book", "doctor", "meeting", "make", "time",
   "cancel", "update", "reschedule", "date", "available", "availability",
   "department", "visit", "slot", "slots", "openings", "see", "see a doctor",
   "follow-up", "check-in", "consultation", "consult",
   "headache", "pain", "hurt", "hurting", "ache", "aching", "fever", "sick",
   "ill", "dizzy", "nausea", "vomiting", "cough", "cold", "flu", "sore throat",
   "swelling", "rash", "bleeding", "injury", "injured", "broken", "sprain",
   "chest pain", "shortness of breath", "breathing problem", "stomach ache",
   "back pain", "migraine", "fatigue", "tired", "weakness", "infection",
   "allergic", "allergy", "emergency", "urgent",
   "i have", "i feel", "feeling", "experiencing", "suffering"]

/-- The `Q&A` keyword list of `DEFAULT_INTENT_KEYWORDS` (`routing_agent.py`). -/
def qnaKeywords : List String :=
  ["question", "query", "general", "answer", "ask", "hours",
   "operating hours", "open", "close",
   "how", "what", "which", "when", "why", "where", "should i", "can i",
   "is it safe", "is it okay",
   "side effect", "side effects", "dosage", "dose", "instruction",
   "directions", "medication", "medicine", "drug", "prescription",
   "over-the-counter", "otc", "antibiotic", "antibiotics", "painkiller",
   "vitamin", "supplement",
   "interaction", "interact", "mix", "combine", "together", "with alcohol",
   "alcohol", "drinking",
   "policy", "coverage", "benefit", "insurance", "copay", "cost", "price",
   "payment", "refill", "faq",
   "advice", "recommend", "recommendation", "information", "info",
   "tell me about", "explain", "normal", "common"]

/-- The apostrophe character, admitted inside a token by the tokenizer
regex `[A-Za-z]+(?:'[A-Za-z]+)?|[0-9]+`. -/
def apos : Char := Char.ofNat 39

/-- One left-to-right pass of `re.findall` for the tokenizer pattern
`[A-Za-z]+(?:'[A-Za-z]+)?|[0-9]+` (`RoutingAgent._tokenize`): a maximal
alphabetic run, optionally extended by one apostrophe plus a further
alphabetic run; or a maximal digit run; other characters are skipped.
The fuel argument bounds the recursion by the input length. -/
def tokenizeAux : Nat → List Char → List (List Char)
  | 0, _ => []
  | _, [] => []
  | fuel + 1, c :: cs =>
    if c.isAlpha then
      let s := List.span (fun d => d.isAlpha) (c :: cs)
      match s.2 with
      | a :: d :: rest =>
        if a = apos ∧ d.isAlpha then
          let s2 := List.span (fun e => e.isAlpha) (d :: rest)
          (s.1 ++ a :: s2.1) :: tokenizeAux fuel s2.2
        else
          s.1 :: tokenizeAux fuel s.2
      | _ => s.1 :: tokenizeAux fuel s.2
    else if c.isDigit then
      let s := List.span (fun d => d.isDigit) (c :: cs)
      s.1 :: tokenizeAux fuel s.2
    else
      tokenizeAux fuel cs

/-- `RoutingAgent._tokenize`: regex findall, then lower-case each token. -/
def tokenize (text : String) : List String :=
  (tokenizeAux text.toList.length text.toList).map
    (fun cs => String.mk (cs.map Char.toLower))

/-- Python `str.title()`: upper-case an alphabetic character when the
previous character is not alphabetic, lower-case it otherwise. -/
def pyTitleAux : Bool → List Char → List Char
  | _, [] => []
  | prevAlpha, c :: cs =>
    (if c.isAlpha then (if prevAlpha then c.toLower else c.toUpper) else c)
      :: pyTitleAux c.isAlpha cs

/-- Python `str.title()`. -/
def pyTitle (s : String) : String := String.mk (pyTitleAux false s.toList)

/-- Python `str.lower()` (ASCII, which is all the router's strings use). -/
def pyLower (s : String) : String := String.mk (s.toList.map Char.toLower)

/-- Python whitespace, as stripped by `str.strip()`. -/
def isPyWS (c : Char) : Bool :=
  c = ' ' ∨ c = Char.ofNat 9 ∨ c = Char.ofNat 10 ∨ c = Char.ofNat 13 ∨
    c = Char.ofNat 11 ∨ c = Char.ofNat 12

/-- Python `str.strip()`. -/
def pyStrip (s : String) : String :=
  String.mk (((s.toList.dropWhile isPyWS).reverse.dropWhile isPyWS).reverse)

/-- One entry of the `evidence` list built by `RoutingAgent._rule_scan`
(`{"index": .., "keyword": .., "specific_task": .., "match": True}`). -/
structure Evidence where
  index : Nat
  keyword : String
  specific_task : String
  matchFlag : Bool
deriving DecidableEq, Repr

/-- The `RoutingResult` dataclass of `routing_agent.py`.  The `counts`
dict with its two fixed keys is modelled by two fields; `confidence`
(a Python float) is modelled as a rational number. -/
structure RoutingResult where
  intent : String
  confidence : ℚ
  rationale : String
  countsScheduling : Nat
  countsQna : Nat
  evidence : List Evidence
  source : String
  raw_text : String
deriving DecidableEq, Repr

/-- `self.sch_stems = {self.stemmer.stem(w) for w in intent_map["Scheduling"]}`,
with the Porter stemmer abstracted as the parameter `st`. -/
def schStems (st : String → String) : List String := schedulingKeywords.map st

/-- `self.qna_stems = {self.stemmer.stem(w) for w in intent_map["Q&A"]}`. -/
def qnaStems (st : String → String) : List String := qnaKeywords.map st

/-- `RoutingAgent._scan_token`: the scheduling membership test (stemmed or
raw) is applied first; the Q&A test only runs when it fails. -/
def scanToken (st : String → String) (token : String) : Option String :=
  if st token ∈ schStems st ∨ token ∈ schedulingKeywords then
    some "scheduling"
  else if st token ∈ qnaStems st ∨ token ∈ qnaKeywords then
    some "qna"
  else
    none

/-- `RoutingAgent._rule_scan`.  Note that the evidence entry stores
`task.title()` (producing `"Scheduling"` / `"Qna"`) while `qna_hits`
compares `specific_task` against the string `"Q&A"`, exactly as in the
source. -/
def ruleScan (st : String → String) (text : String) : RoutingResult :=
  let tokens := tokenize text
  let evidence : List Evidence :=
    tokens.enum.filterMap (fun p =>
      (scanToken st p.2).map (fun task =>
        { index := p.1, keyword := p.2, specific_task := pyTitle task,
          matchFlag := true }))
  let schedulingHits := (evidence.filter
    (fun e => e.specific_task = "Scheduling")).length
  let qnaHits := (evidence.filter
    (fun e => e.specific_task = "Q&A")).length
  let total := max 1 (schedulingHits + qnaHits)
  let distance := ((schedulingHits : ℤ) - qnaHits).natAbs
  let confidence : ℚ := 1/2 + 1/2 * ((distance : ℚ) / (total : ℚ))
  let intent :=
    if schedulingHits > qnaHits then "scheduling"
    else if schedulingHits < qnaHits then "qna"
    else "user_decision"
  let rationale :=
    if schedulingHits > qnaHits then "keyword votes favor scheduling"
    else if schedulingHits < qnaHits then "keyword votes favor qna"
    else "keyword votes equal or unclear"
  { intent := intent, confidence := confidence, rationale := rationale,
    countsScheduling := schedulingHits, countsQna := qnaHits,
    evidence := evidence, source := "stemming rule", raw_text := text }

/-! ## LLM fallback classifier (`RoutingAgent._llm_classification`) -/

/-- A fragment of a JSON value, as decoded by Python's `json.loads`:
numbers and `null` are the shapes the model distinguishes for the
`confidence` field. -/
inductive JVal where
  | jnum (q : ℚ)
  | jnull
deriving DecidableEq, Repr

/-- Python's `float(..)` conversion on a decoded JSON value: numbers
convert, `None` raises `TypeError` (modelled as `none`). -/
def pyFloat : JVal → Option ℚ
  | .jnum q => some q
  | .jnull => none

/-- The fields of the decoded LLM JSON object that `_llm_classification`
reads via `data.get`; `none` models a missing key. -/
structure LLMData where
  intent : Option String
  confidence : Option JVal
  rationale : Option String
  counts : Option (Nat × Nat)
  evidence : Option (List Evidence)
deriving DecidableEq, Repr

/-- Outcome of the chat-completion call plus `json.loads`: either the
`try` block raises (call failure or invalid JSON), or it produces a
decoded object. -/
inductive LLMOutcome where
  | failure
  | success (data : LLMData)
deriving DecidableEq, Repr

/-- Intent normalization in `_llm_classification`: lower-case, map
`"q&a"` to `"qna"`, then strip remaining `&` characters. -/
def normIntent (s : String) : String :=
  let t := pyLower s
  let t := if t = "q&a" then "qna" else t
  String.mk (t.toList.filter (fun c => c ≠ '&'))

/-- `RoutingAgent._llm_classification`.  `hasClient` models
`self.client`; `outcome` models the network call and JSON decode.  The
function returns `Except` because Python's `float(data.get("confidence",
0.5))` sits outside the `try` block and raises on a non-numeric value. -/
def llmClassification (hasClient : Bool) (outcome : LLMOutcome)
    (text : String) : Except String RoutingResult :=
  if ¬ hasClient then
    .ok { intent := "user_decision", confidence := 1/2,
          rationale := "llm unavailable", countsScheduling := 0,
          countsQna := 0, evidence := [], source := "fallback",
          raw_text := text }
  else
    let data : LLMData :=
      match outcome with
      | .failure =>
        { intent := some "user_decision", confidence := some (.jnum (1/2)),
          rationale := some "invalid llm json", counts := some (0, 0),
          evidence := some [] }
      | .success d => d
    let intent := normIntent (data.intent.getD "user_decision")
    match pyFloat (data.confidence.getD (.jnum (1/2))) with
    | none => .error "float() raised on non-numeric confidence"
    | some c =>
      .ok { intent := intent, confidence := c,
            rationale := data.rationale.getD "",
            countsScheduling := (data.counts.getD (0, 0)).1,
            countsQna := (data.counts.getD (0, 0)).2,
            evidence := data.evidence.getD [], source := "llm",
            raw_text := text }

/-! ## Hybrid router (`RoutingAgent.hybrid_decision`, `route_decision`) -/

/-- Result of `hybrid_decision` together with which classifiers ran,
so that invocation claims can be stated. -/
structure HybridOut where
  result : RoutingResult
  ruleInvoked : Bool
  llmInvoked : Bool
deriving DecidableEq, Repr

/-- `RoutingAgent.hybrid_decision`.  `llm` is the value returned by
`_llm_classification` when it is invoked and returns normally; `τ`
models `self.min_confidence_for_rules` (default 0.6). -/
def hybridDecision (st : String → String) (llm : RoutingResult) (τ : ℚ)
    (text : String) : HybridOut :=
  if text = "" then
    { result :=
        { intent := "user_decision", confidence := 1/2,
          rationale := "empty or missing text", countsScheduling := 0,
          countsQna := 0, evidence := [], source := "guard",
          raw_text := "" },
      ruleInvoked := false, llmInvoked := false }
  else
    let ruleResult := ruleScan st text
    if ruleResult.confidence < τ then
      if llm.intent = "" then
        { result := ruleResult, ruleInvoked := true, llmInvoked := true }
      else
        { result := llm, ruleInvoked := true, llmInvoked := true }
    else
      { result := ruleResult, ruleInvoked := true, llmInvoked := false }

/-- The dispatch record assembled by `RoutingAgent.route_decision`
(the constant `payload` dict is omitted; `raw` is `result`). -/
structure RouteDecision where
  intent : String
  confidence : ℚ
  next_service : String
  action : String
  raw : RoutingResult
deriving DecidableEq, Repr

/-- `RoutingAgent.route_decision`.  `result.intent or "user_decision"`
and `result.confidence or 0.5` are Python truthiness tests: the empty
string and the float `0.0` are falsy. -/
def routeDecision (st : String → String) (llm : RoutingResult) (τ : ℚ)
    (text : String) : RouteDecision :=
  let result := (hybridDecision st llm τ text).result
  let intent := if result.intent = "" then "user_decision" else result.intent
  let confidence : ℚ := if result.confidence = 0 then 1/2 else result.confidence
  if 3/5 ≤ confidence ∧ intent = "scheduling" then
    { intent := intent, confidence := confidence,
      next_service := "appointment_service", action := "book_appointment",
      raw := result }
  else if 3/5 ≤ confidence ∧ intent = "qna" then
    { intent := intent, confidence := confidence,
      next_service := "qna_service", action := "answer_question",
      raw := result }
  else
    { intent := intent, confidence := confidence,
      next_service := "frontend", action := "ask_user_decision",
      raw := result }

/-! ## RAG service layer (`RAGService.query`, `get_context_string`) -/

/-- One Pinecone match as read by `RAGService.query`: `metadata.get('text',
'')` and `metadata.get('source_file', 'unknown')`; `none` models a
missing metadata key. -/
structure PMatch where
  score : ℚ
  text : Option String
  source_file : Option String
deriving DecidableEq, Repr

/-- Outcome of the embedding call plus the Pinecone query inside
`RAGService.query`'s `try` block: either stage may raise, or the query
returns a response, possibly without a `matches` key (`ok none`). -/
inductive QueryOutcome where
  | embedFail
  | indexFail
  | ok (found : Option (List PMatch))
deriving DecidableEq, Repr

/-- `RAGService.query`.  The Python catch-all turns any raised exception
into an empty list, so the model is a total function; `topK` is passed
to the index (the index, not this function, enforces it). -/
def ragQuery (queryText : String) (topK : Nat) (outcome : QueryOutcome) :
    List String :=
  if pyStrip queryText = "" then []
  else
    match outcome with
    | .embedFail => []
    | .indexFail => []
    | .ok none => []
    | .ok (some found) =>
      found.foldl (fun chunks m =>
        let t := m.text.getD ""
        if t ≠ "" then chunks ++ [t] else chunks) []

/-- The chunk-formatting part of `RAGService.get_context_string`:
a header part plus one `**Source i:**` part per chunk, joined by
newlines. -/
def contextFormat (chunks : List String) : String :=
  if chunks = [] then ""
  else
    let parts := "**Relevant Medical Information from Knowledge Base:**\n"
      :: chunks.enum.map (fun p =>
          "\n**Source " ++ toString (p.1 + 1) ++ ":**\n" ++ p.2 ++ "\n")
    String.intercalate "\n" parts

/-- `RAGService.get_context_string`: format the chunks returned by
`RAGService.query`. -/
def getContextString (queryText : String) (topK : Nat)
    (outcome : QueryOutcome) : String :=
  contextFormat (ragQuery queryText topK outcome)

/-! ## Notebook-style context assembler (`RAG.retrieve`, `medical_rag.py`) -/

/-- The module-level `delimiter` of `medical_rag.py`. -/
def delim : String := "########"

/-- The module-level `limit` of `medical_rag.py` (character budget). -/
def ragLimit : Nat := 8000

/-- The `while proceed and count < len(self.contexts)` loop of
`RAG.retrieve`: append the next passage whole unless doing so would make
the prompt reach the limit, in which case stop for good. -/
def retrieveLoop : List String → String → String
  | [], prompt => prompt
  | c :: rest, prompt =>
    if ragLimit ≤ prompt.length + c.length then prompt
    else retrieveLoop rest (prompt ++ c)

/-- The context-assembly tail of `RAG.retrieve` (the embedding call and
Pinecone query that produce `self.contexts` are the index collaborator):
`prompt` starts as a single space, passages are appended by the loop, and
the result is wrapped in the delimiter on both sides. -/
def retrieveAssemble (contexts : List String) : String :=
  delim ++ retrieveLoop contexts " " ++ delim

/-- Concatenation of a list of strings (used to state which passages the
loop has appended). -/
def joinAll : List String → String
  | [] => ""
  | c :: rest => c ++ joinAll rest

/-- How many leading passages `retrieveLoop` appends when the prompt
already has length `len`. -/
def greedyCount : List String → Nat → Nat
  | [], _ => 0
  | c :: rest, len =>
    if ragLimit ≤ len + c.length then 0
    else greedyCount rest (len + c.length) + 1

/-! ## Ingestion chunker (`nlp_upsert`, `insert_script.py`) -/

/-- Python `range(start, stop, step)` for a positive step, with fuel
`stop - start` (enough since every iteration advances by at least one). -/
def pyRangeAux : Nat → Nat → Nat → Nat → List Nat
  | 0, _, _, _ => []
  | fuel + 1, start, stop, step =>
    if start < stop then start :: pyRangeAux fuel (start + step) stop step
    else []

/-- Python `range(start, stop, step)` (`step > 0`; `range` with a zero
step raises in Python and is never used by the source). -/
def pyRange (start stop step : Nat) : List Nat :=
  if 0 < step then pyRangeAux (stop - start) start stop step else []

/-- One chunk produced by `nlp_upsert`: its Pinecone id
`f"{nlp_id}_{count}"`, the window bounds, the window's lines, and the
`count` value (also stored as `chunk_index` metadata). -/
structure Chunk where
  id : String
  seq : Nat
  i_begin : Nat
  i_end : Nat
  lines : List String
deriving DecidableEq, Repr

/-- The chunking loop of `nlp_upsert` (`insert_script.py`, and
identically `RAG.nlp_upsert` in `medical_rag.py`): for each `i` in
`range(0, len(doc), chunk_size)`, the window is
`[max(0, i - stride), min(len(doc), i_begin + chunk_size))` and the chunk
id carries the running count starting at 1.  Embedding and upsert are
the external index collaborator. -/
def nlpUpsertChunks (doc : List String) (nlpId : String)
    (chunkSize stride : Nat) : List Chunk :=
  (pyRange 0 doc.length chunkSize).enum.map (fun p =>
    let ib := max 0 (p.2 - stride)
    let ie := min doc.length (ib + chunkSize)
    { id := nlpId ++ "_" ++ toString (p.1 + 1), seq := p.1 + 1,
      i_begin := ib, i_end := ie,
      lines := (doc.drop ib).take (ie - ib) })

/-- Number of line indices shared by two half-open windows. -/
def winOverlap (w1 w2 : Nat × Nat) : Nat :=
  min w1.2 w2.2 - max w1.1 w2.1

/-- A concrete well-formed LLM classification result, used to
instantiate the abstract LLM collaborator in concrete evaluations. -/
def llmStub : RoutingResult :=
  { intent := "qna", confidence := 9/10, rationale := "llm verdict",
    countsScheduling := 0, countsQna := 1, evidence := [], source := "llm",
    raw_text := "stub" }

/-- The keyword-voting confidence formula of `_rule_scan`:
`0.5 + 0.5 * (|s - q| / max(1, s + q))`. -/
def confOf (s q : Nat) : ℚ :=
  1/2 + 1/2 * ((((s : ℤ) - (q : ℤ)).natAbs : ℚ) / ((max 1 (s + q) : ℕ) : ℚ))

/-- A default chunk (used with `List.getD` to state per-index facts). -/
def chunk0 : Chunk := { id := "", seq := 0, i_begin := 0, i_end := 0, lines := [] }

/-! ## Helper lemmas -/

theorem scanToken_cases (st : String → String) (tok : String) :
    scanToken st tok = none ∨ scanToken st tok = some "scheduling" ∨
      scanToken st tok = some "qna" := by
  unfold scanToken
  split
  · exact Or.inr (Or.inl rfl)
  · split
    · exact Or.inr (Or.inr rfl)
    · exact Or.inl rfl

theorem ruleScan_confidence_eq (st : String → String) (text : String) :
    (ruleScan st text).confidence =
      confOf (ruleScan st text).countsScheduling (ruleScan st text).countsQna :=
  rfl

theorem ruleScan_intent_eq (st : String → String) (text : String) :
    (ruleScan st text).intent =
      (if (ruleScan st text).countsScheduling > (ruleScan st text).countsQna
       then "scheduling"
       else if (ruleScan st text).countsScheduling < (ruleScan st text).countsQna
       then "qna" else "user_decision") :=
  rfl

theorem confOf_self (s : Nat) : confOf s s = 1/2 := by
  simp [confOf]

theorem confOf_bounds (s q : Nat) (h : s ≠ q) :
    1/2 < confOf s q ∧ confOf s q ≤ 1 := by
  have hd : 1 ≤ ((s : ℤ) - (q : ℤ)).natAbs := by omega
  have hdt : ((s : ℤ) - (q : ℤ)).natAbs ≤ max 1 (s + q) := by omega
  have ht : (1 : ℚ) ≤ ((max 1 (s + q) : ℕ) : ℚ) := by exact_mod_cast Nat.le_max_left 1 (s + q)
  have htpos : (0 : ℚ) < ((max 1 (s + q) : ℕ) : ℚ) := by linarith
  have hratio_pos : (0 : ℚ) < ((((s : ℤ) - (q : ℤ)).natAbs : ℕ) : ℚ) /
      ((max 1 (s + q) : ℕ) : ℚ) := by
    apply div_pos _ htpos
    exact_mod_cast hd
  have hratio_le : ((((s : ℤ) - (q : ℤ)).natAbs : ℕ) : ℚ) /
      ((max 1 (s + q) : ℕ) : ℚ) ≤ 1 := by
    rw [div_le_one htpos]
    exact_mod_cast hdt
  constructor
  · unfold confOf; linarith
  · unfold confOf; linarith

theorem confOf_mono (s q s' q' : Nat)
    (h : ((((s : ℤ) - (q : ℤ)).natAbs : ℕ) : ℚ) / ((max 1 (s + q) : ℕ) : ℚ)
        ≤ ((((s' : ℤ) - (q' : ℤ)).natAbs : ℕ) : ℚ) / ((max 1 (s' + q') : ℕ) : ℚ)) :
    confOf s q ≤ confOf s' q' := by
  unfold confOf; linarith

theorem confOf_one_zero : confOf 1 0 = 1 := by
  norm_num [confOf]

/-! ## Claim theorems -/

/-- C7: the keyword classifier's confidence equals
`0.5 + 0.5 * (|scheduling_hits - qna_hits| / max(1, scheduling_hits + qna_hits))`
on the hit counts it computes; equal hits (including 0-0) give confidence
0.5 and intent `user_decision`; a nonzero margin gives confidence in
(0.5, 1], monotonically increasing with the margin-to-total ratio; and
1 hit versus 0 already gives confidence 1.0. -/
theorem rule_scan_confidence_spec (st : String → String) (text : String) :
    (ruleScan st text).confidence =
      confOf (ruleScan st text).countsScheduling (ruleScan st text).countsQna
    ∧ ((ruleScan st text).countsScheduling = (ruleScan st text).countsQna →
        (ruleScan st text).confidence = 1/2 ∧
        (ruleScan st text).intent = "user_decision")
    ∧ ((ruleScan st text).countsScheduling ≠ (ruleScan st text).countsQna →
        1/2 < (ruleScan st text).confidence ∧ (ruleScan st text).confidence ≤ 1)
    ∧ ((ruleScan st text).countsScheduling = 1 ∧
        (ruleScan st text).countsQna = 0 → (ruleScan st text).confidence = 1)
    ∧ (∀ (st' : String → String) (text' : String),
        ((((ruleScan st text).countsScheduling : ℤ) -
            ((ruleScan st text).countsQna : ℤ)).natAbs : ℚ) /
          ((max 1 ((ruleScan st text).countsScheduling +
            (ruleScan st text).countsQna) : ℕ) : ℚ)
        ≤ ((((ruleScan st' text').countsScheduling : ℤ) -
            ((ruleScan st' text').countsQna : ℤ)).natAbs : ℚ) /
          ((max 1 ((ruleScan st' text').countsScheduling +
            (ruleScan st' text').countsQna) : ℕ) : ℚ)
        → (ruleScan st text).confidence ≤ (ruleScan st' text').confidence) := by
  refine ⟨ruleScan_confidence_eq st text, ?_, ?_, ?_, ?_⟩
  · intro h
    constructor
    · rw [ruleScan_confidence_eq, h, confOf_self]
    · rw [ruleScan_intent_eq, h]
      simp
  · intro h
    rw [ruleScan_confidence_eq]
    exact confOf_bounds _ _ h
  · rintro ⟨h1, h0⟩
    rw [ruleScan_confidence_eq, h1, h0, confOf_one_zero]
  · intro st' text' h
    rw [ruleScan_confidence_eq, ruleScan_confidence_eq]
    exact confOf_mono _ _ _ _ h

/-- C7 witness: concrete instances of the formula's consequences at real
inputs (with the identity stemmer: the message "what" matches only the
Q&A vocabulary, "appointment" only the scheduling vocabulary). -/
theorem rule_scan_confidence_spec_witness :
    ((ruleScan (fun s => s) "what").confidence = 1/2 ∧
      (ruleScan (fun s => s) "what").intent = "user_decision")
    ∧ (1/2 < (ruleScan (fun s => s) "appointment").confidence ∧
        (ruleScan (fun s => s) "appointment").confidence ≤ 1)
    ∧ (ruleScan (fun s => s) "appointment").confidence = 1 :=
  ⟨(rule_scan_confidence_spec (fun s => s) "what").2.1 (by decide),
   (rule_scan_confidence_spec (fun s => s) "appointment").2.2.1 (by decide),
   (rule_scan_confidence_spec (fun s => s) "appointment").2.2.2.1 (by decide)⟩

/-- C10: a token whose stemmed or raw form is in both vocabularies is
classified as scheduling — `_scan_token` applies the scheduling
membership test first and consults the Q&A test only when it fails. -/
theorem scan_token_scheduling_first (st : String → String) (tok : String)
    (hs : st tok ∈ schStems st ∨ tok ∈ schedulingKeywords)
    (_hq : st tok ∈ qnaStems st ∨ tok ∈ qnaKeywords) :
    scanToken st tok = some "scheduling" := by
  unfold scanToken
  rw [if_pos hs]

/-- C10 witness: with a stemmer that reduces "openings" to "open" (as the
Porter stemmer does), the token "open" is in both vocabularies and is
classified as scheduling. -/
theorem scan_token_scheduling_first_witness :
    ((fun s => if s = "openings" then "open" else s) "open" ∈
        schStems (fun s => if s = "openings" then "open" else s) ∨
      "open" ∈ schedulingKeywords)
    ∧ ((fun s => if s = "openings" then "open" else s) "open" ∈
        qnaStems (fun s => if s = "openings" then "open" else s) ∨
      "open" ∈ qnaKeywords)
    ∧ scanToken (fun s => if s = "openings" then "open" else s) "open" =
        some "scheduling" :=
  ⟨by decide, by decide,
   scan_token_scheduling_first (fun s => if s = "openings" then "open" else s)
     "open" (by decide) (by decide)⟩

/-- C8: for non-empty text, `hybrid_decision` invokes the LLM classifier
iff the rule confidence is strictly below the threshold; on that path the
LLM result is preferred unless it carries no intent (then the rule result
is returned); at or above the threshold the rule result is returned and
the LLM is never invoked. -/
theorem hybrid_fallback_policy (st : String → String) (llm : RoutingResult)
    (τ : ℚ) (text : String) (hne : text ≠ "") :
    ((hybridDecision st llm τ text).llmInvoked = true ↔
      (ruleScan st text).confidence < τ)
    ∧ ((ruleScan st text).confidence < τ →
        (hybridDecision st llm τ text).result =
          (if llm.intent = "" then ruleScan st text else llm))
    ∧ (τ ≤ (ruleScan st text).confidence →
        (hybridDecision st llm τ text).result = ruleScan st text ∧
        (hybridDecision st llm τ text).llmInvoked = false) := by
  unfold hybridDecision
  rw [if_neg hne]
  by_cases hc : (ruleScan st text).confidence < τ
  · rw [if_pos hc]
    refine ⟨⟨fun _ => hc, fun _ => ?_⟩, fun _ => ?_, fun hge => absurd hc (not_lt.mpr hge)⟩
    · split <;> rfl
    · split <;> simp_all
  · rw [if_neg hc]
    exact ⟨⟨fun h => by simp_all, fun h => absurd h hc⟩,
      fun h => absurd h hc, fun _ => ⟨rfl, rfl⟩⟩

/-- C8 witness: on the message "hello" (no keyword hits, rule confidence
0.5 below the default threshold 0.6) the LLM is invoked and its result
preferred. -/
theorem hybrid_fallback_policy_witness :
    (((hybridDecision (fun s => s) llmStub (3/5) "hello").llmInvoked = true ↔
      (ruleScan (fun s => s) "hello").confidence < 3/5)
    ∧ ((ruleScan (fun s => s) "hello").confidence < 3/5 →
        (hybridDecision (fun s => s) llmStub (3/5) "hello").result =
          (if llmStub.intent = "" then ruleScan (fun s => s) "hello" else llmStub))
    ∧ (3/5 ≤ (ruleScan (fun s => s) "hello").confidence →
        (hybridDecision (fun s => s) llmStub (3/5) "hello").result =
          ruleScan (fun s => s) "hello" ∧
        (hybridDecision (fun s => s) llmStub (3/5) "hello").llmInvoked = false)) :=
  hybrid_fallback_policy (fun s => s) llmStub (3/5) "hello" (by decide)

/-- C6 counterexample: the whitespace-only message `" "` is not caught by
the `if not text` guard — the rule scan runs, its confidence 0.5 is below
the default threshold, the LLM classifier is invoked, and the returned
source is not `"guard"`. -/
theorem hybrid_whitespace_not_guarded :
    (hybridDecision (fun s => s) llmStub (3/5) " ").ruleInvoked = true
    ∧ (hybridDecision (fun s => s) llmStub (3/5) " ").llmInvoked = true
    ∧ (hybridDecision (fun s => s) llmStub (3/5) " ").result.source ≠ "guard" := by
  have hconf : (ruleScan (fun s => s) " ").confidence = 1/2 := by
    unfold ruleScan
    rw [show tokenize " " = [] from by decide]
    norm_num
  have h : hybridDecision (fun s => s) llmStub (3/5) " " =
      { result := llmStub, ruleInvoked := true, llmInvoked := true } := by
    unfold hybridDecision
    rw [if_neg (by decide : (" " : String) ≠ ""),
      if_pos (by rw [hconf]; norm_num),
      if_neg (by decide : ¬ llmStub.intent = "")]
  rw [h]
  exact ⟨rfl, rfl, by decide⟩

/-- C6 (amended): only the empty string short-circuits `hybrid_decision`
to intent `user_decision`, source `guard`, confidence 0.5 with neither
classifier invoked; a whitespace-only message instead runs the keyword
classifier (zero hits, confidence 0.5) and, under the default threshold
0.6, also invokes the LLM classifier. -/
theorem hybrid_empty_guard (st : String → String) (llm : RoutingResult)
    (τ : ℚ) :
    ((hybridDecision st llm τ "").result.intent = "user_decision"
      ∧ (hybridDecision st llm τ "").result.source = "guard"
      ∧ (hybridDecision st llm τ "").result.confidence = 1/2
      ∧ (hybridDecision st llm τ "").ruleInvoked = false
      ∧ (hybridDecision st llm τ "").llmInvoked = false)
    ∧ (ruleScan st " ").confidence = 1/2
    ∧ (hybridDecision st llm (3/5) " ").ruleInvoked = true
    ∧ (hybridDecision st llm (3/5) " ").llmInvoked = true := by
  have htok : tokenize " " = [] := by decide
  have hconf : (ruleScan st " ").confidence = 1/2 := by
    unfold ruleScan
    rw [htok]
    norm_num
  refine ⟨⟨rfl, rfl, rfl, rfl, rfl⟩, hconf, ?_, ?_⟩ <;>
  · unfold hybridDecision
    rw [if_neg (by decide : (" " : String) ≠ ""), if_pos (by rw [hconf]; norm_num)]
    split <;> rfl

/-- C5 counterexample: when the chat-completion call fails (or its body
is invalid JSON), `_llm_classification` returns `source = "llm"`, not
`"fallback"`; and a valid JSON response whose `confidence` is non-numeric
(JSON `null`) makes the `float(...)` call — which sits outside the
`try` block — raise instead of degrading. -/
theorem llm_classification_cex :
    (llmClassification true .failure "hi").toOption.map RoutingResult.source =
      some "llm"
    ∧ llmClassification true (.success ⟨none, some .jnull, none, none, none⟩)
        "hi" = .error "float() raised on non-numeric confidence" :=
  ⟨rfl, rfl⟩

/-- C5 (amended): with no client configured, `_llm_classification`
returns intent `user_decision`, confidence 0.5, source `fallback`; when
the call fails or returns invalid JSON it degrades to intent
`user_decision`, confidence 0.5 without raising, but with source `"llm"`;
a valid JSON object with every field missing likewise defaults to intent
`user_decision`, confidence 0.5, source `"llm"`.  (A present but
non-numeric `confidence` value still raises, per the counterexample.) -/
theorem llm_classification_degradation (text : String) (o : LLMOutcome) :
    llmClassification false o text =
      .ok { intent := "user_decision", confidence := 1/2,
            rationale := "llm unavailable", countsScheduling := 0,
            countsQna := 0, evidence := [], source := "fallback",
            raw_text := text }
    ∧ llmClassification true .failure text =
      .ok { intent := "user_decision", confidence := 1/2,
            rationale := "invalid llm json", countsScheduling := 0,
            countsQna := 0, evidence := [], source := "llm",
            raw_text := text }
    ∧ llmClassification true (.success ⟨none, none, none, none, none⟩) text =
      .ok { intent := "user_decision", confidence := 1/2, rationale := "",
            countsScheduling := 0, countsQna := 0, evidence := [],
            source := "llm", raw_text := text } := by
  refine ⟨?_, ?_, ?_⟩ <;> rfl

theorem ragQuery_foldl_eq (ms : List PMatch) (acc : List String) :
    (ms.foldl (fun chunks m =>
        let t := m.text.getD ""
        if t ≠ "" then chunks ++ [t] else chunks) acc) =
      acc ++ (ms.filter (fun m => m.text.getD "" ≠ "")).map
        (fun m => m.text.getD "") := by
  induction ms generalizing acc with
  | nil => simp
  | cons m rest ih =>
    simp only [List.foldl_cons, List.filter_cons]
    by_cases h : m.text.getD "" ≠ ""
    · rw [if_pos h, ih, if_pos (by simpa using h)]
      simp
    · rw [if_neg h, ih, if_neg (by simpa using h)]

/-- C9: `RAGService.query` returns an empty list for empty or
whitespace-only query text; it returns an empty list (it cannot raise:
the catch-all makes it total) when the embedding call fails, the index
query fails, or the response has no `matches` key; on success it yields
the text of each match, skipping matches whose metadata lacks a
(non-empty) text field, preserving the index's ranked order, and at most
`top_k` chunks whenever the index honours `top_k`. -/
theorem rag_query_best_effort (q : String) (k : Nat) :
    (∀ o, pyStrip q = "" → ragQuery q k o = [])
    ∧ ragQuery q k .embedFail = []
    ∧ ragQuery q k .indexFail = []
    ∧ ragQuery q k (.ok none) = []
    ∧ (∀ ms, pyStrip q ≠ "" →
        ragQuery q k (.ok (some ms)) =
          (ms.filter (fun m => m.text.getD "" ≠ "")).map
            (fun m => m.text.getD ""))
    ∧ (∀ ms, ms.length ≤ k → (ragQuery q k (.ok (some ms))).length ≤ k) := by
  refine ⟨?_, ?_, ?_, ?_, ?_, ?_⟩
  · intro o h
    unfold ragQuery
    rw [if_pos h]
  · unfold ragQuery; split <;> rfl
  · unfold ragQuery; split <;> rfl
  · unfold ragQuery; split <;> rfl
  · intro ms h
    unfold ragQuery
    rw [if_neg h]
    exact ragQuery_foldl_eq ms []
  · intro ms hlen
    unfold ragQuery
    split
    · simp
    · show (List.foldl _ [] ms).length ≤ k
      rw [ragQuery_foldl_eq ms []]
      simp only [List.nil_append, List.length_map]
      exact le_trans (List.length_filter_le _ _) hlen

/-- C9 witness: a whitespace-only query and a failing index both give an
empty result; a successful response with one textless match and one
texted match gives exactly the texted chunk, within `top_k`. -/
theorem rag_query_best_effort_witness :
    ragQuery "  " 3 (.ok (some [(⟨1, some "a", none⟩ : PMatch)])) = []
    ∧ ragQuery "flu shot" 3 .embedFail = []
    ∧ ragQuery "flu shot" 3 (.ok (some
        [(⟨1, none, none⟩ : PMatch),
         (⟨1/2, some "chunk", some "d.pdf"⟩ : PMatch)])) = ["chunk"]
    ∧ (ragQuery "flu shot" 2 (.ok (some
        [(⟨1, some "a", none⟩ : PMatch),
         (⟨1/2, some "b", none⟩ : PMatch)]))).length ≤ 2 :=
  ⟨(rag_query_best_effort "  " 3).1 _ (by decide),
   (rag_query_best_effort "flu shot" 3).2.1,
   by
    rw [(rag_query_best_effort "flu shot" 3).2.2.2.2.1 _ (by decide)]
    rfl,
   (rag_query_best_effort "flu shot" 2).2.2.2.2.2 _ (by decide)⟩

theorem retrieveLoop_eq (cs : List String) (p : String) :
    retrieveLoop cs p = p ++ joinAll (cs.take (greedyCount cs p.length)) := by
  induction cs generalizing p with
  | nil => simp [retrieveLoop, greedyCount, joinAll]
  | cons c rest ih =>
    unfold retrieveLoop greedyCount
    by_cases h : ragLimit ≤ p.length + c.length
    · rw [if_pos h, if_pos h]
      simp [joinAll]
    · rw [if_neg h, if_neg h, ih (p ++ c), String.length_append]
      simp only [List.take_succ_cons, joinAll]
      rw [String.append_assoc]

theorem retrieveLoop_lt (cs : List String) (p : String)
    (hp : p.length < ragLimit) : (retrieveLoop cs p).length < ragLimit := by
  induction cs generalizing p with
  | nil => exact hp
  | cons c rest ih =>
    unfold retrieveLoop
    by_cases h : ragLimit ≤ p.length + c.length
    · rw [if_pos h]; exact hp
    · rw [if_neg h]
      exact ih (p ++ c) (by rw [String.length_append]; omega)

theorem greedyCount_le (cs : List String) (len : Nat) :
    greedyCount cs len ≤ cs.length := by
  induction cs generalizing len with
  | nil => simp [greedyCount]
  | cons c rest ih =>
    unfold greedyCount
    by_cases h : ragLimit ≤ len + c.length
    · rw [if_pos h]; simp
    · rw [if_neg h]
      simpa using ih (len + c.length)

theorem joinAll_length (cs : List String) :
    (joinAll cs).length = (cs.map String.length).sum := by
  induction cs with
  | nil => rfl
  | cons c rest ih => simp [joinAll, String.length_append, ih]

theorem greedyCount_stop (cs : List String) (len : Nat)
    (h : greedyCount cs len < cs.length) :
    ragLimit ≤ len + (joinAll (cs.take (greedyCount cs len))).length +
      (cs.get ⟨greedyCount cs len, h⟩).length := by
  induction cs generalizing len with
  | nil => simp at h
  | cons c rest ih =>
    by_cases hc : ragLimit ≤ len + c.length
    · have hg : greedyCount (c :: rest) len = 0 := by
        simp only [greedyCount]
        rw [if_pos hc]
      revert h
      rw [hg]
      intro h
      simpa [joinAll] using hc
    · have hg : greedyCount (c :: rest) len =
          greedyCount rest (len + c.length) + 1 := by
        simp only [greedyCount]
        rw [if_neg hc]
      revert h
      rw [hg]
      intro h
      have h' : greedyCount rest (len + c.length) < rest.length := by
        simpa using h
      have := ih (len + c.length) h'
      simpa [joinAll, String.length_append, Nat.add_assoc] using this

/-- C4 counterexample: on a successful retrieval of one chunk,
`RAGService.get_context_string` returns a non-empty string that is not
wrapped by the boundary delimiter (its first characters are the Markdown
header, not `########`), refuting the claim for `get_context_string`. -/
theorem get_context_string_not_wrapped :
    getContextString "flu" 3 (.ok (some [(⟨1, some "x", none⟩ : PMatch)])) ≠ ""
    ∧ (getContextString "flu" 3
        (.ok (some [(⟨1, some "x", none⟩ : PMatch)]))).toList.take 8
      ≠ delim.toList := by
  constructor <;> decide

/-- C4 (amended): the delimiter-wrapping and budget-bounding hold of the
notebook assembler `RAG.retrieve` (`medical_rag.py`), not of
`RAGService.get_context_string`: the assembled prompt is always wrapped
by the delimiter on both sides, its content between the delimiters (a
single leading space plus whole passages in ranked order) always has
length strictly below the 8000-character budget, and assembly stops
before the first passage whose inclusion would reach the budget.
`get_context_string` is plain numbered formatting: empty exactly when no
chunks arrive, with neither delimiters nor a budget. -/
theorem retrieve_context_bounded (contexts : List String) :
    ∃ n, n ≤ contexts.length
      ∧ retrieveAssemble contexts =
          delim ++ (" " ++ joinAll (contexts.take n)) ++ delim
      ∧ (" " ++ joinAll (contexts.take n)).length < ragLimit
      ∧ (∀ h : n < contexts.length,
          ragLimit ≤ (" " ++ joinAll (contexts.take n)).length +
            (contexts.get ⟨n, h⟩).length)
      ∧ contextFormat [] = "" := by
  refine ⟨greedyCount contexts 1, greedyCount_le contexts 1, ?_, ?_, ?_, rfl⟩
  · unfold retrieveAssemble
    rw [retrieveLoop_eq]
    rfl
  · have h := retrieveLoop_lt contexts " " (by decide)
    rw [retrieveLoop_eq] at h
    exact h
  · intro h
    have := greedyCount_stop contexts 1 h
    rw [String.length_append]
    calc ragLimit ≤ 1 + (joinAll (contexts.take (greedyCount contexts 1))).length +
        (contexts.get ⟨greedyCount contexts 1, h⟩).length := this
    _ = (" " : String).length +
        (joinAll (contexts.take (greedyCount contexts 1))).length +
        (contexts.get ⟨greedyCount contexts 1, h⟩).length := rfl

/-- C4 witness: the amended statement instantiated at a concrete
two-passage ranked list. -/
theorem retrieve_context_bounded_witness :
    ∃ n, n ≤ (["first passage", "second passage"] : List String).length
      ∧ retrieveAssemble ["first passage", "second passage"] =
          delim ++ (" " ++ joinAll ((["first passage", "second passage"] :
            List String).take n)) ++ delim
      ∧ (" " ++ joinAll ((["first passage", "second passage"] :
            List String).take n)).length < ragLimit
      ∧ (∀ h : n < (["first passage", "second passage"] : List String).length,
          ragLimit ≤ (" " ++ joinAll ((["first passage", "second passage"] :
            List String).take n)).length +
            ((["first passage", "second passage"] : List String).get
              ⟨n, h⟩).length)
      ∧ contextFormat [] = "" :=
  retrieve_context_bounded ["first passage", "second passage"]

theorem pyRangeAux_nine (fuel : Nat) : ∀ (start stop : Nat),
    stop - start ≤ fuel →
    pyRangeAux fuel start stop 9 =
      (List.range ((stop - start + 8) / 9)).map (fun j => start + 9 * j) := by
  induction fuel with
  | zero =>
    intro start stop h
    have h9 : (stop - start + 8) / 9 = 0 := by omega
    simp [pyRangeAux, h9]
  | succ fuel ih =>
    intro start stop h
    simp only [pyRangeAux]
    by_cases hlt : start < stop
    · rw [if_pos hlt, ih (start + 9) stop (by omega)]
      have hk : (stop - start + 8) / 9 = (stop - (start + 9) + 8) / 9 + 1 := by
        omega
      rw [hk, List.range_succ_eq_map, List.map_cons, List.map_map]
      refine congrArg₂ _ (by omega) ?_
      refine List.map_congr_left (fun j _ => ?_)
      simp only [Function.comp_apply]
      omega
    · rw [if_neg hlt]
      have h9 : (stop - start + 8) / 9 = 0 := by omega
      simp [h9]

theorem pyRange_nine (N : Nat) :
    pyRange 0 N 9 = (List.range ((N + 8) / 9)).map (fun j => 9 * j) := by
  unfold pyRange
  rw [if_pos (by norm_num)]
  rw [show N - 0 = N from rfl, pyRangeAux_nine N 0 N (by omega)]
  simp

theorem nlpUpsertChunks_length (doc : List String) (nlpId : String) :
    (nlpUpsertChunks doc nlpId 9 3).length = (doc.length + 8) / 9 := by
  simp [nlpUpsertChunks, pyRange_nine]

theorem nlpUpsertChunks_getD (doc : List String) (nlpId : String) (j : Nat)
    (hj : j < (nlpUpsertChunks doc nlpId 9 3).length) :
    (nlpUpsertChunks doc nlpId 9 3).getD j chunk0 =
      { id := nlpId ++ "_" ++ toString (j + 1), seq := j + 1,
        i_begin := max 0 (9 * j - 3),
        i_end := min doc.length (max 0 (9 * j - 3) + 9),
        lines := (doc.drop (max 0 (9 * j - 3))).take
          (min doc.length (max 0 (9 * j - 3) + 9) - max 0 (9 * j - 3)) } := by
  rw [List.getD_eq_getElem _ _ hj]
  have hj' : j < (doc.length + 8) / 9 := by
    rwa [nlpUpsertChunks_length] at hj
  simp [nlpUpsertChunks, pyRange_nine, List.getElem_map, List.getElem_enum,
    List.getElem_range]

/-- C3 counterexample: for a 19-line document with `chunk_size = 9`,
`stride = 3`, the three produced windows are `[0,9)`, `[6,15)`, `[15,19)`:
the second and third windows are consecutive, away from the document
start, yet share 0 lines rather than `stride = 3`. -/
theorem nlp_upsert_overlap_cex :
    (nlpUpsertChunks (List.replicate 19 "L") "nlp" 9 3).map
        (fun c => (c.i_begin, c.i_end)) = [(0, 9), (6, 15), (15, 19)]
    ∧ winOverlap (6, 15) (15, 19) = 0 := by
  constructor <;> decide

/-- C3 (amended): ingestion of an N-line document with `chunk_size = 9`,
`stride = 3` produces exactly `ceil(N/9)` chunks; chunk ids are
`{document_id}_{sequential_index}` with the sequential indices
`1, 2, ...` unique per document; each window is `[i_begin, i_end)` with
`i_begin = max(0, i - stride)` and `i_end = min(N, i_begin + chunk_size)`;
but only the first pair of consecutive windows overlaps (by exactly
`stride` lines) — every later pair of consecutive windows is adjacent,
sharing 0 lines, because `i_end` is computed from `i_begin` rather than
from `i`. -/
theorem nlp_upsert_chunking (doc : List String) (nlpId : String) :
    (nlpUpsertChunks doc nlpId 9 3).length = (doc.length + 8) / 9
    ∧ (nlpUpsertChunks doc nlpId 9 3).map Chunk.seq =
        (List.range ((nlpUpsertChunks doc nlpId 9 3).length)).map (· + 1)
    ∧ ((nlpUpsertChunks doc nlpId 9 3).map Chunk.seq).Nodup
    ∧ (∀ j, j < (nlpUpsertChunks doc nlpId 9 3).length →
        ((nlpUpsertChunks doc nlpId 9 3).getD j chunk0).id =
            nlpId ++ "_" ++ toString (j + 1)
        ∧ ((nlpUpsertChunks doc nlpId 9 3).getD j chunk0).i_begin =
            max 0 (9 * j - 3)
        ∧ ((nlpUpsertChunks doc nlpId 9 3).getD j chunk0).i_end =
            min doc.length (max 0 (9 * j - 3) + 9))
    ∧ (∀ j, j + 1 < (nlpUpsertChunks doc nlpId 9 3).length →
        winOverlap
          (((nlpUpsertChunks doc nlpId 9 3).getD j chunk0).i_begin,
           ((nlpUpsertChunks doc nlpId 9 3).getD j chunk0).i_end)
          (((nlpUpsertChunks doc nlpId 9 3).getD (j + 1) chunk0).i_begin,
           ((nlpUpsertChunks doc nlpId 9 3).getD (j + 1) chunk0).i_end) =
          if j = 0 then 3 else 0) := by
  refine ⟨nlpUpsertChunks_length doc nlpId, ?_, ?_, ?_, ?_⟩
  · refine List.ext_getElem (by simp) (fun j h1 h2 => ?_)
    have hj : j < (nlpUpsertChunks doc nlpId 9 3).length := by simpa using h1
    have := nlpUpsertChunks_getD doc nlpId j hj
    rw [List.getD_eq_getElem _ _ hj] at this
    simp [this]
  · have : (nlpUpsertChunks doc nlpId 9 3).map Chunk.seq =
        (List.range ((nlpUpsertChunks doc nlpId 9 3).length)).map (· + 1) := by
      refine List.ext_getElem (by simp) (fun j h1 h2 => ?_)
      have hj : j < (nlpUpsertChunks doc nlpId 9 3).length := by simpa using h1
      have := nlpUpsertChunks_getD doc nlpId j hj
      rw [List.getD_eq_getElem _ _ hj] at this
      simp [this]
    rw [this]
    exact (List.nodup_range _).map (fun a b hab => by omega)
  · intro j hj
    rw [nlpUpsertChunks_getD doc nlpId j hj]
    exact ⟨rfl, rfl, rfl⟩
  · intro j hj
    have hj0 : j < (nlpUpsertChunks doc nlpId 9 3).length := by omega
    rw [nlpUpsertChunks_getD doc nlpId j hj0, nlpUpsertChunks_getD doc nlpId (j + 1) hj]
    have hN : 9 * j + 10 ≤ doc.length := by
      rw [nlpUpsertChunks_length] at hj
      omega
    unfold winOverlap
    by_cases h0 : j = 0
    · subst h0
      rw [if_pos rfl]
      simp only
      omega
    · rw [if_neg h0]
      simp only
      omega

/-- C3 witness: the amended statement instantiated at a concrete 20-line
document, where the first two windows indeed overlap by exactly 3. -/
theorem nlp_upsert_chunking_witness :
    (nlpUpsertChunks (List.replicate 20 "x") "doc" 9 3).length = (20 + 8) / 9
    ∧ winOverlap
        (((nlpUpsertChunks (List.replicate 20 "x") "doc" 9 3).getD 0
            chunk0).i_begin,
         ((nlpUpsertChunks (List.replicate 20 "x") "doc" 9 3).getD 0
            chunk0).i_end)
        (((nlpUpsertChunks (List.replicate 20 "x") "doc" 9 3).getD 1
            chunk0).i_begin,
         ((nlpUpsertChunks (List.replicate 20 "x") "doc" 9 3).getD 1
            chunk0).i_end) = if 0 = 0 then 3 else 0 :=
  ⟨by
    have := (nlp_upsert_chunking (List.replicate 20 "x") "doc").1
    simpa using this,
   (nlp_upsert_chunking (List.replicate 20 "x") "doc").2.2.2.2 0 (by decide)⟩

theorem evidence_task (st : String → String) (text : String) :
    ∀ e ∈ (ruleScan st text).evidence,
      e.specific_task = "Scheduling" ∨ e.specific_task = "Qna" := by
  intro e he
  have he' : e ∈ (tokenize text).enum.filterMap (fun p =>
      (scanToken st p.2).map (fun task =>
        ({ index := p.1, keyword := p.2, specific_task := pyTitle task,
           matchFlag := true } : Evidence))) := he
  rw [List.mem_filterMap] at he'
  obtain ⟨p, _, hp⟩ := he'
  rw [Option.map_eq_some'] at hp
  obtain ⟨task, htask, heq⟩ := hp
  rcases scanToken_cases st p.2 with h | h | h
  · rw [h] at htask
    exact absurd htask (by simp)
  · rw [h] at htask
    injection htask with htask
    left
    rw [← heq, ← htask]
    exact (by decide : pyTitle "scheduling" = "Scheduling")
  · rw [h] at htask
    injection htask with htask
    right
    rw [← heq, ← htask]
    exact (by decide : pyTitle "qna" = "Qna")

/-- C1: the claimed invariant `counts.scheduling + counts.qna ==
len(evidence)` fails in the code: the evidence entries store
`task.title()` (the string `"Qna"`) while `qna_hits` counts entries whose
`specific_task` equals `"Q&A"`, so the qna count is always 0.  On the
message "policy" (one matched Q&A token) the evidence has one entry but
the counts sum to 0.  The spec (and the repository's own
`test_routing.py`, which expects rule-based qna votes) describes the
intent; the code's comparison string is the slip. -/
theorem rule_scan_counts_invariant_bug :
    (∀ (st : String → String) (text : String), (ruleScan st text).countsQna = 0)
    ∧ (ruleScan (fun s => s) "policy").evidence.length = 1
    ∧ (ruleScan (fun s => s) "policy").countsScheduling +
        (ruleScan (fun s => s) "policy").countsQna = 0 := by
  refine ⟨?_, by decide, by decide⟩
  intro st text
  have hq : (ruleScan st text).countsQna =
      ((ruleScan st text).evidence.filter
        (fun e => e.specific_task = "Q&A")).length := rfl
  have hnil : (ruleScan st text).evidence.filter
      (fun e => e.specific_task = "Q&A") = [] := by
    rw [List.filter_eq_nil_iff]
    intro e he
    rcases evidence_task st text e he with h1 | h1 <;> simp [h1]
  rw [hq, hnil]
  rfl

/-- C2: the claim fails in the code for the same slip as the counts
invariant: on the message "appointment policy" — exactly one scheduling
token and one Q&A token — the qna vote is never counted, so instead of a
tie (`user_decision`, confidence 0.5, routed to the frontend) the rule
path sees 1–0, reports `scheduling` with confidence 1.0, and
`route_decision` dispatches to the appointment service. -/
theorem route_decision_tie_bug :
    scanToken (fun s => s) "appointment" = some "scheduling"
    ∧ scanToken (fun s => s) "policy" = some "qna"
    ∧ tokenize "appointment policy" = ["appointment", "policy"]
    ∧ (ruleScan (fun s => s) "appointment policy").evidence.length = 2
    ∧ (routeDecision (fun s => s) llmStub (3/5)
        "appointment policy").intent = "scheduling"
    ∧ (routeDecision (fun s => s) llmStub (3/5)
        "appointment policy").confidence = 1
    ∧ (routeDecision (fun s => s) llmStub (3/5)
        "appointment policy").next_service = "appointment_service"
    ∧ (routeDecision (fun s => s) llmStub (3/5)
        "appointment policy").action = "book_appointment" := by
  have hs : (ruleScan (fun s => s) "appointment policy").countsScheduling = 1 := by
    decide
  have hq : (ruleScan (fun s => s) "appointment policy").countsQna = 0 := by
    decide
  have hconf : (ruleScan (fun s => s) "appointment policy").confidence = 1 := by
    rw [ruleScan_confidence_eq, hs, hq, confOf_one_zero]
  have hint : (ruleScan (fun s => s) "appointment policy").intent =
      "scheduling" := by decide
  have hhyb : hybridDecision (fun s => s) llmStub (3/5) "appointment policy" =
      { result := ruleScan (fun s => s) "appointment policy",
        ruleInvoked := true, llmInvoked := false } := by
    unfold hybridDecision
    rw [if_neg (by decide : ("appointment policy" : String) ≠ ""),
      if_neg (by rw [hconf]; norm_num)]
  have hroute : routeDecision (fun s => s) llmStub (3/5) "appointment policy" =
      { intent := "scheduling", confidence := 1,
        next_service := "appointment_service", action := "book_appointment",
        raw := ruleScan (fun s => s) "appointment policy" } := by
    unfold routeDecision
    rw [hhyb]
    simp only [hint, hconf]
    norm_num
    simp
  refine ⟨by decide, by decide, by decide, by decide, ?_, ?_, ?_, ?_⟩ <;>
    rw [hroute]

end Carely
